import Mathlib

/-
Verification of the mangotools rigging toolkit against its natural-language
specification.  The Python sources under rig/ are shallowly embedded below:

* strings are embedded as `List Char` (`Str`), so that splitting and joining
  on single-character delimiters can be reasoned about directly;
* Python dictionaries become association lists with insert-or-replace update,
  which preserves CPython's insertion-order semantics;
* fallible code returns `Except PyErr`, with one constructor per Python
  exception class raised by the sources;
* host (Maya) scene state is an explicit `Scene` record threaded through the
  embedded operations; host computations with no bearing on the claims
  (path resolution, UI dialogs, initial bind weights) are taken as inputs
  and flagged by comments at their definition sites.
-/

namespace MT



/-- Python `str` is embedded as a list of characters. -/
abbrev Str := List Char

/-- Python's `str.split(c)` for a one-character separator `c`:
splitting the empty string yields `[""]`, and separators at either end
produce empty fields, exactly as in CPython. -/
def splitOnChar (c : Char) : Str → List Str
  | [] => [[]]
  | x :: xs =>
    match splitOnChar c xs with
    | [] => if x = c then [[], []] else [[x]]
    | h :: t => if x = c then [] :: h :: t else (x :: h) :: t

/-- Python's `sep.join(parts)`. -/
def joinSep (sep : Str) : List Str → Str
  | [] => []
  | [x] => x
  | x :: xs => x ++ sep ++ joinSep sep xs

/-! ## rig/config/__init__.py — the `Config` tables -/
/-- Config.DELIMITER. -/
def DELIMITER : Str := ("_").toList

/-- Config.SIDES (insertion order: left, right, center). -/
def SIDES : List (Str × Str) :=
  [(("left").toList, ("l").toList),
   (("right").toList, ("r").toList),
   (("center").toList, ("c").toList)]

/-- Config.REGIONS (insertion order: top, bottom, outside, inside). -/
def REGIONS : List (Str × Str) :=
  [(("top").toList, ("tp").toList),
   (("bottom").toList, ("bt").toList),
   (("outside").toList, ("ot").toList),
   (("inside").toList, ("in").toList)]

/-- Config.NODETYPES (insertion order as in the source dict literal). -/
def NODETYPES : List (Str × Str) :=
  [(("joint").toList, ("jnt").toList),
   (("control").toList, ("ctrl").toList),
   (("group").toList, ("grp").toList),
   (("null").toList, ("null").toList),
   (("ikHandle").toList, ("ikh").toList),
   (("mesh").toList, ("geo").toList),
   (("geo").toList, ("geo").toList)]

/-- Python `d.get(k, k)` on a string-to-string dict. -/
def dictGet (d : List (Str × Str)) (k : Str) : Str :=
  match d.find? (fun p => p.1 == k) with
  | some p => p.2
  | none => k

/-- Embeds `Config.SIDES.values()`. -/
def sideValues : List Str := SIDES.map Prod.snd

/-- Embeds `Config.REGIONS.values()`. -/
def regionValues : List Str := REGIONS.map Prod.snd

/-- Embeds `Config.NODETYPES.values()`. -/
def nodetypeValues : List Str := NODETYPES.map Prod.snd

/-! ## rig/config/naming.py — `Naming` -/
/-- The five name components carried by a `Naming` instance.  `none` stands
for Python `None`; the empty list stands for the empty string (both are
falsy, see `pyFalsy`). -/
structure Components where
  node_type : Option Str
  role : Option Str
  descriptor : Option Str
  region : Option Str
  side : Option Str
deriving DecidableEq

/-- Components record with every field `None`. -/
def noComponents : Components := ⟨none, none, none, none, none⟩

/-- Python truthiness test for an optional string: `None` and `''` are falsy. -/
def pyFalsy : Option Str → Bool
  | none => true
  | some s => s.isEmpty

/-- The keys of `Config.TokenOrder`, in order. -/
inductive TokenKey where
  | node_type | role | descriptor | region | side
deriving DecidableEq

/-- The lookup table `Config.TokenOrder[key]` (empty for role/descriptor). -/
def tableOf : TokenKey → List (Str × Str)
  | .node_type => NODETYPES
  | .role => []
  | .descriptor => []
  | .region => REGIONS
  | .side => SIDES

/-- Read the field of `Components` named by a token key. -/
def getComp (c : Components) : TokenKey → Option Str
  | .node_type => c.node_type
  | .role => c.role
  | .descriptor => c.descriptor
  | .region => c.region
  | .side => c.side

/-- Embeds `setattr(self, '_<key>', v)`. -/
def setComp (c : Components) : TokenKey → Option Str → Components
  | .node_type, v => { c with node_type := v }
  | .role, v => { c with role := v }
  | .descriptor, v => { c with descriptor := v }
  | .region, v => { c with region := v }
  | .side, v => { c with side := v }

/-- Embeds `Config.TokenOrder` key order: node_type, role, descriptor, region, side. -/
def TokenOrder : List TokenKey :=
  [.node_type, .role, .descriptor, .region, .side]

/-- Embeds `Naming.NODETYPE` class attribute (None on the base class). -/
def NODETYPE : Option Str := none

/-- Embeds `Naming.compose_name(**kwargs)` with all five keywords passed: falsy
node_type is replaced by the class `NODETYPE`, then the non-falsy components
are translated through `Config.TokenOrder[token].get(v, v)` in token order
and joined with the delimiter. -/
def compose_name (c : Components) : Str :=
  let c := if pyFalsy c.node_type then { c with node_type := NODETYPE } else c
  let toks := TokenOrder.foldl
    (fun acc k =>
      let v := getComp c k
      if pyFalsy v then acc
      else acc ++ [dictGet (tableOf k) (v.getD [])])
    []
  joinSep DELIMITER toks

/-- Embeds `Naming.decompose_name` acting on the component fields, given the current
name.  Mirrors the source exactly: the zip-assignment branch when the token
count matches `TokenOrder`, then the one-by-one matching loop over a snapshot
of the token list with `list.remove` (first occurrence) on matches, then the
assignment of the one or two leftover tokens to descriptor / role+descriptor. -/
def decompose_name (name : Str) (c : Components) : Components :=
  let tokens := splitOnChar '_' name
  let c :=
    if tokens.length = TokenOrder.length then
      (TokenOrder.zip tokens).foldl (fun c kt => setComp c kt.1 (some kt.2)) c
    else c
  let step := fun (p : Components × List Str) (token : Str) =>
    if token ∈ sideValues then
      ({ p.1 with side := some token }, p.2.erase token)
    else if token ∈ regionValues then
      ({ p.1 with region := some token }, p.2.erase token)
    else if token ∈ nodetypeValues then
      ({ p.1 with node_type := some token }, p.2.erase token)
    else p
  let cr := tokens.foldl step (c, tokens)
  if cr.2.length = 1 then
    { cr.1 with descriptor := some (cr.2.getD 0 []) }
  else if cr.2.length = 2 then
    { cr.1 with role := some (cr.2.getD 0 []), descriptor := some (cr.2.getD 1 []) }
  else cr.1

/-- A `Naming` instance: the stored `_name` plus its component fields. -/
structure Naming where
  name : Str
  comps : Components
deriving DecidableEq

/-- Embeds `Naming.__init__`: store the arguments and decompose the name when every
component argument is falsy. -/
def namingInit (name : Str) (c : Components) : Naming :=
  if (TokenOrder.map (getComp c)).any (fun v => !(pyFalsy v)) then ⟨name, c⟩
  else ⟨name, decompose_name name c⟩

/-- The `name` property setter: return unchanged on an equal name, otherwise
store the new name. -/
def name_setter (n : Naming) (new : Str) : Naming :=
  if new = n.name then n else { n with name := new }

/-- The `node_type` property setter: guard on equality with the current
value, translate through `NODETYPES.get(new, new)`, recompose the name
through the `name` property setter. -/
def node_type_setter (n : Naming) (v : Option Str) : Naming :=
  if v = n.comps.node_type then n
  else
    let c := { n.comps with node_type := v.map (fun x => dictGet NODETYPES x) }
    name_setter { n with comps := c } (compose_name c)

/-- The `side` property setter: guard on equality, translate through
`SIDES.get(new, new)`, recompose through the `name` property setter. -/
def side_setter (n : Naming) (v : Option Str) : Naming :=
  if v = n.comps.side then n
  else
    let c := { n.comps with side := v.map (fun x => dictGet SIDES x) }
    name_setter { n with comps := c } (compose_name c)

/-- The `region` property setter: guard on equality, store untranslated,
assign `self._name` directly from `compose_name`. -/
def region_setter (n : Naming) (v : Option Str) : Naming :=
  if v = n.comps.region then n
  else
    let c := { n.comps with region := v }
    { n with comps := c, name := compose_name c }

/-- The `descriptor` property setter: guard on equality, store untranslated,
assign `self._name` directly from `compose_name`. -/
def descriptor_setter (n : Naming) (v : Option Str) : Naming :=
  if v = n.comps.descriptor then n
  else
    let c := { n.comps with descriptor := v }
    { n with comps := c, name := compose_name c }

/-- The `role` property setter: guard on equality, store untranslated,
assign `self._name` directly from `compose_name`. -/
def role_setter (n : Naming) (v : Option Str) : Naming :=
  if v = n.comps.role then n
  else
    let c := { n.comps with role := v }
    { n with comps := c, name := compose_name c }

/-! ## Spec-side definitions for the naming claims -/
/-- Componentwise translation of a token set through the lookup tables
(role and descriptor have no table and stay as written).  For every token
set, the tokens appearing in the composed name are exactly the non-falsy
fields of this record, so this is what the spec's round-trip sentence says
decomposition should give back. -/
def translateComponents (c : Components) : Components :=
  ⟨c.node_type.map (fun x => dictGet NODETYPES x),
   c.role, c.descriptor,
   c.region.map (fun x => dictGet REGIONS x),
   c.side.map (fun x => dictGet SIDES x)⟩

/-- C2, stated from the spec's words: the non-empty components, each
translated through its lookup table when present there and left unchanged
otherwise, concatenated in the fixed order node_type, role, descriptor,
region, side, separated by the delimiter underscore. -/
def composeSpec (c : Components) : Str :=
  joinSep ("_").toList
    (([(NODETYPES, c.node_type), ([], c.role), ([], c.descriptor),
       (REGIONS, c.region), (SIDES, c.side)] :
        List (List (Str × Str) × Option Str)).filterMap
      (fun tv =>
        match tv.2 with
        | some v => if v.isEmpty then none else some (dictGet tv.1 v)
        | none => none))

/-- A concrete `Naming` instance used by the C9 witness: name `jnt_x`,
node_type `jnt`, descriptor `x`. -/
def sampleNaming : Naming :=
  ⟨("jnt_x").toList, ⟨some (("jnt").toList), none, some (("x").toList), none, none⟩⟩

/-! ## rig/maya/skin.py — `SkinCluster.removeNamespaceFrom` (claim C10) -/
/-- Embeds `SkinCluster.removeNamespaceFrom`: with both ':' and '|' present, strip
the namespace off every '|'-separated token and rejoin; with only ':'
present, keep the last ':'-token; otherwise return the string unchanged. -/
def removeNamespaceFrom (s : Str) : Str :=
  if ':' ∈ s ∧ '|' ∈ s then
    joinSep ['|'] ((splitOnChar '|' s).map (fun t => (splitOnChar ':' t).getLastD []))
  else if ':' ∈ s then
    (splitOnChar ':' s).getLastD []
  else s

/-! ## Python exceptions -/
/-- The Python exception classes raised by the embedded code paths. -/
inductive PyErr where
  | runtimeError : String → PyErr
  | valueError : String → PyErr
  | keyError : PyErr
  | typeError : PyErr
  | assertionError : String → PyErr
  | fileNotFoundError : String → PyErr
deriving DecidableEq

instance {ε α : Type} [DecidableEq ε] [DecidableEq α] :
    DecidableEq (Except ε α) := fun a b =>
  match a, b with
  | .ok x, .ok y =>
    if h : x = y then isTrue (h ▸ rfl)
    else isFalse (fun e => h (Except.ok.inj e))
  | .error x, .error y =>
    if h : x = y then isTrue (h ▸ rfl)
    else isFalse (fun e => h (Except.error.inj e))
  | .ok _, .error _ => isFalse (fun e => Except.noConfusion e)
  | .error _, .ok _ => isFalse (fun e => Except.noConfusion e)

/-! ## rig/utils/dataIO.py — `dump` and `save` (claim C8)
The data argument is modelled as a flat dictionary of strings (an
association list of Lean `String`s); that is the shape the toolkit actually
serializes and it is always JSON-serializable, so the `except BaseException`
re-raise inside `dump` is unreachable here.  The filesystem is an explicit
record of existing directories and file contents. -/
/-- Lowercase hexadecimal digit, as produced by `json.dumps` escapes. -/
def hexDigit (n : Nat) : Char :=
  if n < 10 then Char.ofNat (48 + n) else Char.ofNat (87 + n)

/-- Four-digit lowercase hex, for `\uXXXX` escapes. -/
def hex4 (n : Nat) : String :=
  String.mk [hexDigit (n / 4096 % 16), hexDigit (n / 256 % 16),
    hexDigit (n / 16 % 16), hexDigit (n % 16)]

/-- Per-character JSON escaping with `json.dumps` defaults
(`ensure_ascii=True`): the two-character escapes for quote, backslash and
the common control characters, `\uXXXX` for other control and non-ASCII
characters, and a surrogate pair for astral code points. -/
def jsonEscapeChar (c : Char) : String :=
  if c = '"' then "\\\""
  else if c = '\\' then "\\\\"
  else if c = '\n' then "\\n"
  else if c = '\t' then "\\t"
  else if c = '\r' then "\\r"
  else if c.toNat = 8 then "\\b"
  else if c.toNat = 12 then "\\f"
  else if 32 ≤ c.toNat ∧ c.toNat < 127 then String.mk [c]
  else if c.toNat < 65536 then "\\u" ++ hex4 c.toNat
  else
    "\\u" ++ hex4 (55296 + (c.toNat - 65536) / 1024)
      ++ "\\u" ++ hex4 (56320 + (c.toNat - 65536) % 1024)

/-- A JSON string literal. -/
def jsonString (x : String) : String :=
  "\"" ++ String.join (x.toList.map jsonEscapeChar) ++ "\""

/-- Embeds `json.dumps(data, sort_keys=True, indent=JSON_INDENT)` on a flat
string-to-string dictionary: entries sorted by key, each on its own line
indented by four spaces, separated by commas. -/
def jsonDumps (data : List (String × String)) : String :=
  match data.mergeSort (fun a b => decide (a.1 ≤ b.1)) with
  | [] => "\x7b\x7d"
  | items =>
    "\x7b\n"
      ++ String.intercalate (",\n")
          (items.map (fun kv => "    " ++ jsonString kv.1 ++ ": " ++ jsonString kv.2))
      ++ "\n\x7d"

/-- Embeds `dataIO.dump`: serialize; flat string dictionaries always serialize, so
the `RuntimeError` re-raise branch is unreachable in this model. -/
def dump (data : List (String × String)) : String := jsonDumps data

/-- Embeds `os.path.dirname` with POSIX separators, as returned by Maya and used
throughout the toolkit: everything before the last '/', with trailing
slashes stripped unless the head is all slashes. -/
def dirname (p : String) : String :=
  let cs := p.toList
  let tail := cs.reverse.takeWhile (fun c => c ≠ '/')
  let head := cs.take (cs.length - tail.length)
  if head.all (fun c => c = '/') then String.mk head
  else String.mk (head.reverse.dropWhile (fun c => c = '/')).reverse

/-- A filesystem: the set of existing directories and the file contents. -/
structure FS where
  dirs : List String
  files : List (String × String)
deriving DecidableEq

/-- The chain from a path up through its parent directories (fuelled by the
path length; `dirname` strictly shortens real paths). -/
def ancestorChain : Nat → String → List String
  | 0, _ => []
  | fuel+1, p =>
    if p = "" then []
    else p :: ancestorChain fuel (if dirname p = p then "" else dirname p)

/-- Embeds `os.makedirs`: raises `FileNotFoundError` on the empty path, otherwise
creates the target directory and its missing ancestors. -/
def makedirs (fs : FS) (d : String) : Except PyErr FS :=
  if d = "" then .error (.fileNotFoundError d)
  else .ok { fs with
    dirs := fs.dirs ++ (ancestorChain (d.length + 1) d).filter
      (fun p => decide (p ∉ fs.dirs)) }

/-- Embeds `open(path, 'w')` followed by a full write: create or overwrite.  The
filesystem is keyed by path, so the update is modelled as prepend-and-drop. -/
def fileSet (files : List (String × String)) (k v : String) :
    List (String × String) :=
  (k, v) :: files.filter (fun p => !(p.1 == k))

/-- Read a file's contents. -/
def fileGet (files : List (String × String)) (k : String) : Option String :=
  match files.find? (fun p => p.1 == k) with
  | some p => some p.2
  | none => none

/-- Embeds `dataIO.save`: return immediately on falsy data; otherwise ensure the
parent directory exists (`os.makedirs` when `os.path.isdir` is false) and
write the JSON dump to the file. -/
def save (data : List (String × String)) (filepath : String) (fs : FS) :
    Except PyErr FS :=
  if data.isEmpty then .ok fs
  else
    match (if dirname filepath ∈ fs.dirs then Except.ok fs
           else makedirs fs (dirname filepath)) with
    | .error e => .error e
    | .ok fs1 => .ok { fs1 with files := fileSet fs1.files filepath (dump data) }

/-! ## The Maya scene model
Host scene state is a record.  Weight values are host doubles that the
embedded code paths only move around and never compute with, so they are
represented by `Int` stand-ins. -/
/-- A shape node under a transform: its `.intermediateObject` attribute and
whether `cmds.listConnections(shape, source=False)` is non-empty. -/
structure ShapeNode where
  name : Str
  intermediate : Bool
  hasConnections : Bool
deriving DecidableEq

/-- A dag node: `referenced` marks nodes excluded by
`ls(referencedNodes=False)`; `deleteFails` marks nodes whose deletion the
host refuses with `RuntimeError`. -/
structure SceneNode where
  name : Str
  nodeType : Str
  shapes : List ShapeNode
  referenced : Bool
  deleteFails : Bool
deriving DecidableEq

/-- A skinCluster deformer node.  `flatWeights` is the host's flat weight
array (the weight of influence `ii` at vertex `jj` sits at
`jj * nInfl + ii`); `geometry` is `cmds.skinCluster(skin, q, g=True)`. -/
structure SkinNode where
  name : Str
  geometry : List Str
  influences : List Str
  flatWeights : List Int
  blendWeights : List Int
  skinningMethod : Int
  normalizeWeights : Int
deriving DecidableEq

/-- The scene: dag nodes, skinCluster nodes, the selection list, the
per-node vertex counts answered by `cmds.polyEvaluate(n, vertex=True)`, and
the dag parent relation touched by `cmds.parent`. -/
structure Scene where
  nodes : List SceneNode
  skins : List SkinNode
  selection : List Str
  vertexCounts : List (Str × Nat)
  parentOf : List (Str × Str)
deriving DecidableEq

/-- Embeds `cmds.objExists`. -/
def objExists (sc : Scene) (n : Str) : Bool :=
  sc.nodes.any (fun x => x.name == n)

/-- Look a dag node up by name. -/
def findNode (sc : Scene) (n : Str) : Option SceneNode :=
  sc.nodes.find? (fun x => x.name == n)

/-- Look a skinCluster node up by name (what binding `MFnSkinCluster` to the
stored name reads). -/
def findSkin (sc : Scene) (n : Str) : Option SkinNode :=
  sc.skins.find? (fun x => x.name == n)

/-- Embeds `cmds.polyEvaluate(n, vertex=True)`. -/
def polyEvaluate (sc : Scene) (n : Str) : Option Nat :=
  (sc.vertexCounts.find? (fun p => p.1 == n)).map Prod.snd

/-- Embeds `cmds.ls(type='joint')`. -/
def jointNames (sc : Scene) : List Str :=
  (sc.nodes.filter (fun x => x.nodeType == ("joint").toList)).map SceneNode.name

/-- Embeds `SkinCluster.getShape`: for a transform scan the child shapes for the
first one matching the intermediate flag, falling back to the first shape;
curve, mesh and surface nodes return themselves; anything else `None`.
`cmds.nodeType` on a missing node raises in the host; the callers below
only reach this after an existence check. -/
def getShape (sc : Scene) (mesh : Str) (intermediate : Bool) : Option Str :=
  match findNode sc mesh with
  | none => none
  | some nd =>
    if nd.nodeType = ("transform").toList then
      match nd.shapes.find? (fun s =>
          (intermediate && s.intermediate && s.hasConnections)
          || (!intermediate && !s.intermediate)) with
      | some s => some s.name
      | none =>
        match nd.shapes with
        | [] => none
        | s :: _ => some s.name
    else if nd.nodeType = ("nurbsCurve").toList ∨ nd.nodeType = ("mesh").toList
        ∨ nd.nodeType = ("nurbsSurface").toList then
      some mesh
    else none

/-- Embeds `SkinCluster.getSkin`: resolve the shape, then return the first
skinCluster whose deformed geometry contains it.  The source's
`except: return None` inside the query loop is unreachable because
`ls(type='skinCluster')` yields only skinClusters. -/
def getSkin (sc : Scene) (meshShape : Str) : Option Str :=
  match getShape sc meshShape false with
  | some shp => (sc.skins.find? (fun sk => decide (shp ∈ sk.geometry))).map SkinNode.name
  | none => none

/-! ## Python dictionaries (insertion-ordered association lists) -/
/-- Python dict assignment `d[k] = v`: replace in place, preserving the
key's position, or append a new entry. -/
def pdictSet {κ ν : Type} [BEq κ] (d : List (κ × ν)) (k : κ) (v : ν) :
    List (κ × ν) :=
  if d.any (fun p => p.1 == k) then
    d.map (fun p => if p.1 == k then (k, v) else p)
  else d ++ [(k, v)]

/-- Python dict lookup `d.get(k)`. -/
def pdictFind {κ ν : Type} [BEq κ] (d : List (κ × ν)) (k : κ) : Option ν :=
  (d.find? (fun p => p.1 == k)).map Prod.snd

/-- Python `del d[k]`. -/
def pdictErase {κ ν : Type} [BEq κ] (d : List (κ × ν)) (k : κ) :
    List (κ × ν) :=
  d.filter (fun p => !(p.1 == k))

/-- The per-influence weights dictionary stored at `self.data['weights']`. -/
abbrev WDict := List (Str × List Int)

/-- The values stored in the `self.data` dictionary. -/
inductive DVal where
  | weights : WDict → DVal
  | arr : List Int → DVal
  | str : Str → DVal
  | int : Int → DVal
deriving DecidableEq

/-- Embeds `self.data`: a Python dict with string keys. -/
abbrev DataDict := List (String × DVal)

/-! ## rig/maya/skin.py — `SkinCluster` -/
/-- The members of a `SkinCluster` instance that the claims touch
(`self.fn`/`self.mobject` re-read the live node and are modelled by the
`findSkin` lookup on the stored skinCluster name). -/
structure SkinClusterState where
  mesh : Str
  meshShape : Str
  skinCluster : Str
  data : DataDict
deriving DecidableEq

/-- Embeds `getInfluenceWeights`: rebuild the per-influence per-vertex lists from
the flat weight array, keyed by namespace-stripped influence names
(`inflPerVtx = weights.length() / nInfl`, integer division as executed by
the Maya Python 2 runtime this code targets). -/
def influenceFold (sk : SkinNode) (w0 : WDict) : WDict :=
  (List.range sk.influences.length).foldl
    (fun w idx =>
      pdictSet w (removeNamespaceFrom (sk.influences.getD idx []))
        ((List.range (sk.flatWeights.length / sk.influences.length)).map
          (fun jj => sk.flatWeights.getD (jj * sk.influences.length + idx) 0)))
    w0

/-- The dictionary updates `getData` performs in order: influence weights,
blend weights, the `skinningMethod` and `normalizeWeights` attributes, and
the skinCluster name. -/
def getDataDict (skinCluster : Str) (sk : SkinNode) (d : DataDict)
    (w0 : WDict) : DataDict :=
  pdictSet (pdictSet (pdictSet (pdictSet (pdictSet d
    ("weights") (.weights (influenceFold sk w0)))
    ("blendWeights") (.arr sk.blendWeights))
    ("skinningMethod") (.int sk.skinningMethod))
    ("normalizeWeights") (.int sk.normalizeWeights))
    ("name") (.str skinCluster)

/-- Embeds `SkinCluster.getData`: read influence weights, blend weights and the
`skinningMethod` / `normalizeWeights` attributes from the scene into
`self.data`, and re-store the skinCluster name. -/
def getData (sc : Scene) (st : SkinClusterState) : Except PyErr SkinClusterState :=
  match findSkin sc st.skinCluster with
  | none => .error .keyError
  | some sk =>
    match pdictFind st.data ("weights") with
    | some (.weights w0) =>
      .ok { st with data := getDataDict st.skinCluster sk st.data w0 }
    | _ => .error .typeError

/-- Embeds `SkinCluster.__init__` (the default weights-path resolution is host
path glue outside the model): resolve the mesh from the argument or the
selection, check existence, find the attached shape and skinCluster —
raising on each failure — then read the deformer data. -/
def skinClusterInit (sc : Scene) (mesh : Option Str) :
    Except PyErr SkinClusterState :=
  match (match mesh with
         | none =>
           match sc.selection with
           | [] => Except.error (PyErr.runtimeError ("No mesh found."))
           | m :: _ => Except.ok m
         | some m =>
           if objExists sc m then Except.ok m
           else Except.error (PyErr.runtimeError ("doesn't seem to exist."))) with
  | .error e => .error e
  | .ok m =>
    match getShape sc m false with
    | none => .error (.runtimeError ("Could not find a shape attached."))
    | some shp =>
      match getSkin sc shp with
      | none => .error (.valueError ("No skin attached."))
      | some skinName =>
        getData sc ⟨m, shp, skinName,
          [(("weights"), DVal.weights []), (("blendWeights"), DVal.arr []),
           (("name"), DVal.str skinName)]⟩

/-- Embeds `MayaBaseNode.__init__`: assert that the node exists, then run the
`Naming` constructor (the dag-path members only read the scene). -/
def mayaBaseNodeInit (sc : Scene) (name : Str) : Except PyErr Naming :=
  if objExists sc name then .ok (namingInit name noComponents)
  else .error (.assertionError ("doesn't exist"))

/-- Embeds `setWeights`: starting from the current flat array, for each imported
influence find the first live influence with the same namespace-stripped
name and overwrite its weight slots (`getD` stands in for host values
where an imported array is shorter; the host would raise `IndexError`
there, a path no claim touches). -/
def setWeightsCalc (sk : SkinNode) (w : WDict) : List Int :=
  w.foldl
    (fun flat kv =>
      match (List.range sk.influences.length).find? (fun ii =>
          removeNamespaceFrom (sk.influences.getD ii []) == kv.1) with
      | some ii =>
        (List.range (sk.flatWeights.length / sk.influences.length)).foldl
          (fun fl jj => fl.set (jj * sk.influences.length + ii) (kv.2.getD jj 0))
          flat
      | none => flat)
    sk.flatWeights

/-- Replace a skinCluster node in the scene. -/
def updateSkin (sc : Scene) (name : Str) (sk : SkinNode) : Scene :=
  { sc with skins := sc.skins.map (fun x => if x.name == name then sk else x) }

/-- Embeds `SkinCluster.setData`: push the dictionary back into the deformer —
influence weights, blend weights, then the two attributes.  The source
performs the three writes sequentially; the embedding validates the
dictionary lookups up front and applies the writes as one scene update,
which is indistinguishable here because an `Except` result carries no
partially-written scene. -/
def setData (sc : Scene) (st : SkinClusterState) (data : DataDict) :
    Except PyErr Scene :=
  match findSkin sc st.skinCluster with
  | none => .error .keyError
  | some sk =>
    match pdictFind data ("weights"), pdictFind data ("blendWeights"),
        pdictFind data ("skinningMethod"), pdictFind data ("normalizeWeights") with
    | some (.weights w), some (.arr bw), some (.int sm), some (.int nw) =>
      .ok (updateSkin sc st.skinCluster
        { sk with
            flatWeights := setWeightsCalc sk w
            blendWeights := bw
            skinningMethod := sm
            normalizeWeights := nw })
    | _, _, _, _ => .error .keyError

/-- Embeds `remapJoints`: split the imported influence names into those matching a
namespace-stripped scene joint and the rest; when both leftover sets are
non-empty the remap dialog runs and the user-chosen mapping (an input of
the model) moves weight entries from source to destination keys, set before
delete as in the source. -/
def remapJoints (sc : Scene) (data : DataDict) (mapping : List (Str × Str)) :
    Except PyErr DataDict :=
  match pdictFind data ("weights") with
  | some (.weights w) =>
    let um := (w.map Prod.fst).foldl
      (fun (p : List Str × List Str) j =>
        if j ∈ p.2 then (p.1, p.2.erase j) else (p.1 ++ [j], p.2))
      ([], ((jointNames sc).map removeNamespaceFrom).dedup)
    if um.1 ≠ [] ∧ um.2 ≠ [] then
      match mapping.foldlM
          (fun w1 sd =>
            match pdictFind w1 sd.1 with
            | some arr => Except.ok (pdictErase (pdictSet w1 sd.2 arr) sd.1)
            | none => Except.error PyErr.keyError)
          w with
      | .error e => .error e
      | .ok w2 => .ok (pdictSet data ("weights") (.weights w2))
    else .ok data
  | _ => .error .typeError

/-- Embeds `len(data['blendWeights'])` on the unpickled file contents. -/
def importedVtxCount (data : DataDict) : Except PyErr Nat :=
  match pdictFind data ("blendWeights") with
  | some (.arr l) => .ok l.length
  | some _ => .error .typeError
  | none => .error .keyError

/-- Embeds `SkinCluster.createAndImport` (file access abstracted: `fileData` is
the unpickled file contents; the default-path/extension handling is host
path glue).  Mirrors the source order: resolve the mesh, read the file,
raise on a blend-weight count differing from the mesh's vertex count, then
remap influences; if no skinCluster is attached, bind one
(`cmds.skinCluster(joints, mesh, tsb=True, nw=2, n=...)`, the
host-computed initial bind weights modelled as zeros), and push the data. -/
def createAndImport (sc : Scene) (mesh : Option Str) (fileData : DataDict)
    (mapping : List (Str × Str)) : Except PyErr Scene :=
  match (match mesh with
         | none =>
           match sc.selection with
           | [] => Except.error (PyErr.runtimeError ("No mesh selected or passed in."))
           | m :: _ => Except.ok m
         | some m => Except.ok m) with
  | .error e => .error e
  | .ok m =>
    match importedVtxCount fileData with
    | .error e => .error e
    | .ok importedVtx =>
      match polyEvaluate sc m with
      | none => .error (.runtimeError ("polyEvaluate failed"))
      | some meshCount =>
        if meshCount ≠ importedVtx then
          .error (.runtimeError ("Imported vtx count did not match."))
        else
          match getSkin sc m with
          | some _ =>
            match skinClusterInit sc (some m) with
            | .error e => .error e
            | .ok st =>
              match remapJoints sc fileData mapping with
              | .error e => .error e
              | .ok data2 => setData sc st data2
          | none =>
            match remapJoints sc fileData mapping with
            | .error e => .error e
            | .ok data2 =>
              match pdictFind data2 ("weights"), pdictFind data2 ("name") with
              | some (.weights w), some (.str nm) =>
                let newSkin : SkinNode :=
                  { name := nm,
                    geometry := match getShape sc m false with
                                | some s => [s]
                                | none => [],
                    influences := w.map Prod.fst,
                    flatWeights := List.replicate ((w.map Prod.fst).length * meshCount) 0,
                    blendWeights := List.replicate meshCount 0,
                    skinningMethod := 0,
                    normalizeWeights := 2 }
                let sc1 := { sc with skins := sc.skins ++ [newSkin] }
                match skinClusterInit sc1 (some m) with
                | .error e => .error e
                | .ok st => setData sc1 st data2
              | _, _ => .error .keyError

/-- Embeds `SkinCluster.importWeights` (file access abstracted as in
`createAndImport`): refresh `self.data`, read the file, raise on a
blend-weight count differing from the mesh shape's vertex count, then
remap and push. -/
def importWeights (sc : Scene) (st : SkinClusterState) (fileData : DataDict)
    (mapping : List (Str × Str)) : Except PyErr Scene :=
  match getData sc st with
  | .error e => .error e
  | .ok st1 =>
    match importedVtxCount fileData with
    | .error e => .error e
    | .ok importedVtx =>
      match polyEvaluate sc st1.meshShape with
      | none => .error (.runtimeError ("polyEvaluate failed"))
      | some meshCount =>
        if meshCount ≠ importedVtx then
          .error (.runtimeError ("Imported vtx count did not match."))
        else
          match remapJoints sc fileData mapping with
          | .error e => .error e
          | .ok data2 => setData sc { st1 with data := data2 } data2

/-- The weights-file filesystem: `pickle.dump`/`pickle.load` is a faithful
serialization round trip, so file contents are modelled as the data
dictionaries themselves. -/
structure WFS where
  dirs : List String
  files : List (String × DataDict)
deriving DecidableEq

/-- Embeds `SkinCluster.exportWeights` (the resolved target `path` is an input;
the default-path/extension handling is host path glue): refresh
`self.data`, create the target directory when missing, and write the
pickled dictionary to the file. -/
def exportWeights (sc : Scene) (st : SkinClusterState) (path : String)
    (fs : WFS) : Except PyErr (WFS × SkinClusterState) :=
  match getData sc st with
  | .error e => .error e
  | .ok st1 =>
    match (if dirname path ∈ fs.dirs then Except.ok fs
           else if dirname path = "" then
             Except.error (PyErr.fileNotFoundError (""))
           else
             Except.ok { fs with
               dirs := fs.dirs ++ (ancestorChain ((dirname path).length + 1)
                 (dirname path)).filter (fun p => decide (p ∉ fs.dirs)) }) with
    | .error e => .error e
    | .ok fs1 =>
      .ok ({ fs1 with
              files := (path, st1.data) :: fs1.files.filter
                (fun p => !(p.1 == path)) }, st1)

/-! ## rig/maya/optimize.py (claim C4) -/
/-- Embeds `cmds.ls(type='unknown', referencedNodes=False)`. -/
def get_unknown_nodes (sc : Scene) : List SceneNode :=
  sc.nodes.filter (fun n => n.nodeType == ("unknown").toList && !n.referenced)

/-- Embeds `cmds.lockNode(node, lock=False)` followed by `cmds.delete(node)`; the
host raises `RuntimeError` on nodes it refuses to delete. -/
def tryDelete (sc : Scene) (n : SceneNode) : Except PyErr Scene :=
  if n.deleteFails then .error (.runtimeError ("cannot delete"))
  else .ok { sc with nodes := sc.nodes.filter (fun x => !(x.name == n.name)) }

/-- The loop body of `delete_unknown_nodes`: `RuntimeError` is caught and
the node collected into the unable list, `ValueError` is caught and
skipped; any other exception propagates. -/
def deleteStep (acc : Scene × List Str × List Str) (n : SceneNode) :
    Except PyErr (Scene × List Str × List Str) :=
  match tryDelete acc.1 n with
  | .ok sc1 => Except.ok (sc1, acc.2.1 ++ [n.name], acc.2.2)
  | .error (.runtimeError _) => Except.ok (acc.1, acc.2.1, acc.2.2 ++ [n.name])
  | .error (.valueError _) => Except.ok acc
  | .error e => Except.error e

/-- Embeds `delete_unknown_nodes`: run the catching loop body over the unknown
nodes, returning the final scene with the able and unable name lists. -/
def delete_unknown_nodes (sc : Scene) :
    Except PyErr (Scene × List Str × List Str) :=
  (get_unknown_nodes sc).foldlM deleteStep (sc, ([] : List Str), ([] : List Str))

/-- Embeds `cmds.parent(node, par)`: the host raises `RuntimeError` when the
target is missing or the reparent is invalid (modelled as a missing parent
or parenting a node under itself); on success the dag parent relation is
updated. -/
def tryParent (sc : Scene) (node par : Str) : Except PyErr Scene :=
  if objExists sc par && !(node == par) then
    .ok { sc with
      parentOf := (node, par) :: sc.parentOf.filter (fun p => !(p.1 == node)) }
  else .error (.runtimeError ("failed to parent"))

/-- The `MayaBaseNode.parent` property setter: try `cmds.parent`, catching
`RuntimeError` with a logged warning and continuing. -/
def parent_setter (sc : Scene) (node par : Str) : Except PyErr Scene :=
  match tryParent sc node par with
  | .ok sc1 => .ok sc1
  | .error (.runtimeError _) => .ok sc
  | .error e => .error e

/-! ## rig/maya/control.py — `Control.set_shape` (claim C7) -/
/-- One curve entry of the control-shape library (`positions` and `degree`
are geometry consumed by `create_from_points`; their values never affect
control flow). -/
structure CurveDef where
  positions : List Int
  degree : Int
deriving DecidableEq

/-- One control entry of the library: its child shapes by name. -/
structure CtrlDef where
  shapes : List (Str × CurveDef)
deriving DecidableEq

/-- Embeds `str.lower()`. -/
def toLowerStr (s : Str) : Str := s.map Char.toLower

/-- Embeds `get_shape_from` with `replace=True` deletes the existing shapes and
reparents the donor's shapes under the control; with `replace=False` it
appends them. -/
def getShapeFrom (sc : Scene) (ctl : Str) (shs : List ShapeNode)
    (replaceShapes : Bool) : Scene :=
  { sc with nodes := sc.nodes.map (fun n =>
      if n.name == ctl then
        { n with shapes := (if replaceShapes then [] else n.shapes) ++ shs }
      else n) }

/-- Embeds `Control.set_shape` (`dataIO.load` asserts the library file exists and
parses it; the parsed library dictionary is an input of the model): a
case-insensitive 'circle' builds a host circle and copies its shape; any
other name is looked up in the library, raising `KeyError` before the scene
is touched when the entry is missing, and otherwise copying each child
curve built by `create_from_points`. -/
def set_shape (lib : List (Str × CtrlDef)) (sc : Scene) (ctl : Str)
    (new_shape : Str) (replaceShapes : Bool) : Except PyErr Scene :=
  if toLowerStr new_shape = ("circle").toList then
    .ok (getShapeFrom sc ctl [⟨ctl ++ ("Shape").toList, false, false⟩] replaceShapes)
  else
    match pdictFind lib new_shape with
    | none => .error .keyError
    | some cd =>
      .ok (cd.shapes.foldl
        (fun s p => getShapeFrom s ctl [⟨p.1, false, false⟩] replaceShapes) sc)

/-! ## Concrete scenes and states used by the witnesses -/

/-- The empty scene. -/
def emptyScene : Scene := ⟨[], [], [], [], []⟩

/-- A scene holding one bare transform `pCube1` with no shapes. -/
def bareScene : Scene :=
  ⟨[⟨("pCube1").toList, ("transform").toList, [], false, false⟩], [], [], [], []⟩

/-- A scene holding the transform `pCube1` with shape `pCubeShape1` and no
skinClusters. -/
def unskinnedScene : Scene :=
  ⟨[⟨("pCube1").toList, ("transform").toList,
     [⟨("pCubeShape1").toList, false, false⟩], false, false⟩,
    ⟨("pCubeShape1").toList, ("mesh").toList, [], false, false⟩],
   [], [], [], []⟩

/-! ## Claim C4 — exception propagation -/
/-- A scene with two unknown nodes, the first of which the host refuses to
delete. -/
def c4scene : Scene :=
  ⟨[⟨("badNode").toList, ("unknown").toList, [], false, true⟩,
    ⟨("okNode").toList, ("unknown").toList, [], false, false⟩],
   [], [], [], []⟩

/-- A fully skinned one-vertex cube scene: transform `pCube1`, shape
`pCubeShape1`, joint `j1`, skinCluster `sc1`. -/
def c3scene : Scene :=
  ⟨[⟨("pCube1").toList, ("transform").toList,
     [⟨("pCubeShape1").toList, false, false⟩], false, false⟩,
    ⟨("pCubeShape1").toList, ("mesh").toList, [], false, false⟩,
    ⟨("j1").toList, ("joint").toList, [], false, false⟩],
   [⟨("sc1").toList, [("pCubeShape1").toList], [("j1").toList], [0], [0], 0, 2⟩],
   [], [(("pCube1").toList, 1), (("pCubeShape1").toList, 1)], []⟩

/-- An imported weights file whose blendWeights array has two entries. -/
def c3file : DataDict :=
  [(("weights"), DVal.weights [(("j1").toList, [0, 0])]),
   (("blendWeights"), DVal.arr [0, 0]),
   (("name"), DVal.str (("sc1").toList)),
   (("skinningMethod"), DVal.int 0),
   (("normalizeWeights"), DVal.int 2)]

/-- The `SkinCluster` instance state bound to `pCube1` in `c3scene`. -/
def c3st : SkinClusterState :=
  ⟨("pCube1").toList, ("pCubeShape1").toList, ("sc1").toList,
   [(("weights"), DVal.weights []), (("blendWeights"), DVal.arr []),
    (("name"), DVal.str (("sc1").toList))]⟩

/-- The state `getData` produces from `c3st` on `c3scene` (extracted so the
witness can name it). -/
def c3st1 : SkinClusterState :=
  match getData c3scene c3st with
  | .ok s => s
  | .error _ => c3st

/-- The `SkinCluster` instance the constructor produces for `pCube1` on
`c3scene` (extracted so the C6 witness can name it). -/
def c6st : SkinClusterState :=
  match skinClusterInit c3scene (some (("pCube1").toList)) with
  | .ok s => s
  | .error _ => c3st

/-! ## Lemmas about splitting and joining -/
theorem splitOnChar_ne_nil (c : Char) (s : Str) : splitOnChar c s ≠ [] := by
  induction s with
  | nil => simp [splitOnChar]
  | cons x xs ih =>
    simp only [splitOnChar]
    split <;> split <;> simp

theorem splitOnChar_no_sep {c : Char} {t : Str} (h : c ∉ t) :
    splitOnChar c t = [t] := by
  induction t with
  | nil => rfl
  | cons x xs ih =>
    have hx : ¬ (x = c) := fun e => h (e ▸ List.mem_cons_self x xs)
    have h' : c ∉ xs := fun m => h (List.mem_cons_of_mem _ m)
    simp [splitOnChar, ih h', hx]

theorem splitOnChar_append_sep (c : Char) (t rest : Str) (h : c ∉ t) :
    splitOnChar c (t ++ c :: rest) = t :: splitOnChar c rest := by
  induction t with
  | nil =>
    simp only [List.nil_append, splitOnChar]
    cases hsp : splitOnChar c rest with
    | nil => exact absurd hsp (splitOnChar_ne_nil c rest)
    | cons a t => simp
  | cons x xs ih =>
    have hx : ¬ (x = c) := fun e => h (e ▸ List.mem_cons_self x xs)
    have h' : c ∉ xs := fun m => h (List.mem_cons_of_mem _ m)
    simp only [List.cons_append, splitOnChar, List.append_eq, ih h', hx, if_false]

theorem splitOnChar_joinSep (c : Char) (ts : List Str) (hne : ts ≠ [])
    (h : ∀ t ∈ ts, c ∉ t) : splitOnChar c (joinSep [c] ts) = ts := by
  induction ts with
  | nil => exact absurd rfl hne
  | cons a l ih =>
    cases l with
    | nil => exact splitOnChar_no_sep (h a (List.mem_cons_self a []))
    | cons b l2 =>
      have hj : joinSep [c] (a :: b :: l2) = a ++ c :: joinSep [c] (b :: l2) := by
        simp [joinSep]
      rw [hj, splitOnChar_append_sep c a _ (h a (List.mem_cons_self a _)),
        ih (by simp) (fun t ht => h t (List.mem_cons_of_mem _ ht))]

theorem not_mem_of_mem_splitOnChar (c : Char) (s : Str) :
    ∀ t ∈ splitOnChar c s, c ∉ t := by
  induction s with
  | nil => simp [splitOnChar]
  | cons x xs ih =>
    intro u hu
    simp only [splitOnChar] at hu
    split at hu
    · rename_i hsp
      exact absurd hsp (splitOnChar_ne_nil c xs)
    · rename_i a t hsp
      have ih' : ∀ t' ∈ a :: t, c ∉ t' := hsp ▸ ih
      split at hu
      · rename_i hxc
        rcases List.mem_cons.mp hu with h1 | h1
        · simp [h1]
        · exact ih' u h1
      · rename_i hxc
        rcases List.mem_cons.mp hu with h1 | h1
        · subst h1
          intro hc
          rcases List.mem_cons.mp hc with h2 | h2
          · exact hxc h2.symm
          · exact ih' a (List.mem_cons_self a t) h2
        · exact ih' u (List.mem_cons_of_mem _ h1)

theorem not_mem_joinSep {c : Char} {sep : Str} {ts : List Str}
    (hsep : c ∉ sep) (h : ∀ t ∈ ts, c ∉ t) : c ∉ joinSep sep ts := by
  induction ts with
  | nil => simp [joinSep]
  | cons a l ih =>
    cases l with
    | nil => exact h a (List.mem_cons_self a [])
    | cons b l2 =>
      have hj : joinSep sep (a :: b :: l2) = a ++ sep ++ joinSep sep (b :: l2) := by
        simp [joinSep]
      rw [hj]
      intro hc
      rcases List.mem_append.mp hc with h1 | h1
      · rcases List.mem_append.mp h1 with h2 | h2
        · exact h a (List.mem_cons_self a _) h2
        · exact hsep h2
      · exact ih (fun t ht => h t (List.mem_cons_of_mem _ ht)) h1

/-! ## Facts about the lookup tables, decided by evaluation -/
theorem nodetypeValues_facts :
    ∀ x ∈ nodetypeValues, x ∉ sideValues ∧ x ∉ regionValues ∧ '_' ∉ x ∧ x ≠ [] := by
  decide

theorem regionValues_facts :
    ∀ x ∈ regionValues, x ∉ sideValues ∧ '_' ∉ x ∧ x ≠ [] := by
  decide

theorem sideValues_facts :
    ∀ x ∈ sideValues, '_' ∉ x ∧ x ≠ [] := by
  decide

theorem dictGet_nil (k : Str) : dictGet [] k = k := rfl

theorem foldl_append_filterMap {α β : Type} (p : α → Bool) (f : α → β) :
    ∀ (l : List α) (acc : List β),
      l.foldl (fun a k => if p k then a else a ++ [f k]) acc
        = acc ++ l.filterMap (fun k => if p k then none else some (f k)) := by
  intro l
  induction l with
  | nil => simp
  | cons x xs ih =>
    intro acc
    by_cases h : p x <;> simp [h, ih]

/-! ## Claims C1, C2, C9 — the naming subsystem -/
/-- C2: for every assignment of the five components, `compose_name` produces
exactly the non-empty components, each translated through its lookup table
when present there and left unchanged otherwise, concatenated in the fixed
order node_type, role, descriptor, region, side, separated by the
delimiter underscore (`composeSpec` is that sentence written out). -/
theorem c2_compose_name_spec (c : Components) : compose_name c = composeSpec c := by
  rcases c with ⟨nt, r, d, rg, sd⟩
  simp only [compose_name, composeSpec, foldl_append_filterMap, List.nil_append]
  congr 1
  simp only [TokenOrder, List.filterMap_cons, List.filterMap_nil]
  by_cases hnt : pyFalsy nt <;>
    simp only [hnt, if_true, if_false, getComp, tableOf, NODETYPE] <;>
    cases nt <;> cases r <;> cases d <;> cases rg <;> cases sd <;>
      simp_all [pyFalsy]

/-- C1 as stated is false: for the token set (node_type='joint', role='def',
descriptor='tp', region='top', side='left') the composed name is
`jnt_def_tp_tp_l`, and decomposing it yields descriptor='def' instead of the
descriptor token 'tp' of the composed name (the one-by-one matching loop eats
both 'tp' tokens as regions and then reassigns the single leftover 'def' to
the descriptor). -/
theorem c1_roundtrip_cex :
    ¬ (decompose_name
        (compose_name ⟨some ("joint").toList, some ("def").toList, some ("tp").toList,
          some ("top").toList, some ("left").toList⟩) noComponents
      = translateComponents ⟨some ("joint").toList, some ("def").toList, some ("tp").toList,
          some ("top").toList, some ("left").toList⟩) := by
  decide

/-- C1 (amended): composing a name from five non-empty tokens and then
decomposing the result on a fresh instance yields each component attribute
equal to the corresponding token of the composed name, provided the
node_type, region and side tokens translate into codes of their lookup
tables, and the role and descriptor tokens are delimiter-free, non-empty,
and equal to no code of any lookup table. -/
theorem c1_roundtrip (nt r d rg sd : Str)
    (hnt : dictGet NODETYPES nt ∈ nodetypeValues)
    (hrg : dictGet REGIONS rg ∈ regionValues)
    (hsd : dictGet SIDES sd ∈ sideValues)
    (hrs : r ∉ sideValues) (hrr : r ∉ regionValues) (hrn : r ∉ nodetypeValues)
    (hds : d ∉ sideValues) (hdr : d ∉ regionValues) (hdn : d ∉ nodetypeValues)
    (hru : '_' ∉ r) (hdu : '_' ∉ d) (hrne : r ≠ []) (hdne : d ≠ []) :
    decompose_name (compose_name ⟨some nt, some r, some d, some rg, some sd⟩) noComponents
      = translateComponents ⟨some nt, some r, some d, some rg, some sd⟩ := by
  have hAf := nodetypeValues_facts _ hnt
  have hRGf := regionValues_facts _ hrg
  have hSDf := sideValues_facts _ hsd
  have hnt0 : nt.isEmpty = false := by
    cases nt with
    | nil => exact absurd hnt (by decide)
    | cons a l => rfl
  have hrg0 : rg.isEmpty = false := by
    cases rg with
    | nil => exact absurd hrg (by decide)
    | cons a l => rfl
  have hsd0 : sd.isEmpty = false := by
    cases sd with
    | nil => exact absurd hsd (by decide)
    | cons a l => rfl
  have hr0 : r.isEmpty = false := by
    cases r with
    | nil => exact absurd rfl hrne
    | cons a l => rfl
  have hd0 : d.isEmpty = false := by
    cases d with
    | nil => exact absurd rfl hdne
    | cons a l => rfl
  have hcomp : compose_name ⟨some nt, some r, some d, some rg, some sd⟩
      = joinSep ['_'] [dictGet NODETYPES nt, r, d, dictGet REGIONS rg, dictGet SIDES sd] := by
    simp [compose_name, TokenOrder, getComp, tableOf, pyFalsy, hnt0, hr0, hd0, hrg0, hsd0,
      DELIMITER, joinSep, dictGet_nil]
  have hsplit : splitOnChar '_' (joinSep ['_']
      [dictGet NODETYPES nt, r, d, dictGet REGIONS rg, dictGet SIDES sd])
      = [dictGet NODETYPES nt, r, d, dictGet REGIONS rg, dictGet SIDES sd] := by
    refine splitOnChar_joinSep '_' _ (by simp) ?_
    intro t ht
    simp only [List.mem_cons, List.not_mem_nil, or_false] at ht
    rcases ht with rfl | rfl | rfl | rfl | rfl
    · exact hAf.2.2.1
    · exact hru
    · exact hdu
    · exact hRGf.2.1
    · exact hSDf.1
  have hrRG : ¬ (r = dictGet REGIONS rg) := fun e => hrr (e ▸ hrg)
  have hdRG : ¬ (d = dictGet REGIONS rg) := fun e => hdr (e ▸ hrg)
  have hrSD : ¬ (r = dictGet SIDES sd) := fun e => hrs (e ▸ hsd)
  have hdSD : ¬ (d = dictGet SIDES sd) := fun e => hds (e ▸ hsd)
  rw [hcomp]
  simp only [decompose_name]
  rw [hsplit]
  simp [TokenOrder, setComp, List.erase_cons, hAf.1, hAf.2.1, hnt,
    hRGf.1, hrg, hsd, hrs, hrr, hrn, hds, hdr, hdn, hrRG, hdRG, hrSD, hdSD,
    translateComponents]

/-- C1 witness: the amended round trip at the docstring's example
(node_type='joint', role='def', descriptor='lip', region='top', side='left'). -/
theorem c1_roundtrip_witness :
    decompose_name (compose_name ⟨some ("joint").toList, some ("def").toList,
        some ("lip").toList, some ("top").toList, some ("left").toList⟩) noComponents
      = translateComponents ⟨some ("joint").toList, some ("def").toList,
        some ("lip").toList, some ("top").toList, some ("left").toList⟩ :=
  c1_roundtrip ("joint").toList ("def").toList ("lip").toList ("top").toList ("left").toList
    (by decide) (by decide) (by decide) (by decide) (by decide) (by decide)
    (by decide) (by decide) (by decide) (by decide) (by decide) (by decide) (by decide)

/-- C9: every component property setter, given a value equal to the current
one, returns with the instance entirely unchanged; given a different value,
it re-establishes the invariant that the stored name equals `compose_name`
of the instance's current components. -/
theorem c9_setters (n : Naming) (v : Option Str) :
    (v = n.comps.node_type → node_type_setter n v = n) ∧
    (v ≠ n.comps.node_type →
      (node_type_setter n v).name = compose_name (node_type_setter n v).comps) ∧
    (v = n.comps.side → side_setter n v = n) ∧
    (v ≠ n.comps.side →
      (side_setter n v).name = compose_name (side_setter n v).comps) ∧
    (v = n.comps.region → region_setter n v = n) ∧
    (v ≠ n.comps.region →
      (region_setter n v).name = compose_name (region_setter n v).comps) ∧
    (v = n.comps.descriptor → descriptor_setter n v = n) ∧
    (v ≠ n.comps.descriptor →
      (descriptor_setter n v).name = compose_name (descriptor_setter n v).comps) ∧
    (v = n.comps.role → role_setter n v = n) ∧
    (v ≠ n.comps.role →
      (role_setter n v).name = compose_name (role_setter n v).comps) := by
  refine ⟨?_, ?_, ?_, ?_, ?_, ?_, ?_, ?_, ?_, ?_⟩ <;> intro h
  · simp [node_type_setter, h]
  · simp only [node_type_setter, if_neg h, name_setter]
    split
    · rename_i hh
      exact hh.symm
    · rfl
  · simp [side_setter, h]
  · simp only [side_setter, if_neg h, name_setter]
    split
    · rename_i hh
      exact hh.symm
    · rfl
  · simp [region_setter, h]
  · simp only [region_setter, if_neg h]
  · simp [descriptor_setter, h]
  · simp only [descriptor_setter, if_neg h]
  · simp [role_setter, h]
  · simp only [role_setter, if_neg h]

/-- C9 witness: each of the ten conjuncts applied at concrete values on
`sampleNaming`. -/
theorem c9_setters_witness :
    (node_type_setter sampleNaming (some (("jnt").toList)) = sampleNaming) ∧
    ((node_type_setter sampleNaming (some (("group").toList))).name
      = compose_name (node_type_setter sampleNaming (some (("group").toList))).comps) ∧
    (side_setter sampleNaming none = sampleNaming) ∧
    ((side_setter sampleNaming (some (("left").toList))).name
      = compose_name (side_setter sampleNaming (some (("left").toList))).comps) ∧
    (region_setter sampleNaming none = sampleNaming) ∧
    ((region_setter sampleNaming (some (("top").toList))).name
      = compose_name (region_setter sampleNaming (some (("top").toList))).comps) ∧
    (descriptor_setter sampleNaming (some (("x").toList)) = sampleNaming) ∧
    ((descriptor_setter sampleNaming (some (("y").toList))).name
      = compose_name (descriptor_setter sampleNaming (some (("y").toList))).comps) ∧
    (role_setter sampleNaming none = sampleNaming) ∧
    ((role_setter sampleNaming (some (("def").toList))).name
      = compose_name (role_setter sampleNaming (some (("def").toList))).comps) :=
  ⟨(c9_setters sampleNaming _).1 (by decide),
   (c9_setters sampleNaming _).2.1 (by decide),
   (c9_setters sampleNaming _).2.2.1 (by decide),
   (c9_setters sampleNaming _).2.2.2.1 (by decide),
   (c9_setters sampleNaming _).2.2.2.2.1 (by decide),
   (c9_setters sampleNaming _).2.2.2.2.2.1 (by decide),
   (c9_setters sampleNaming _).2.2.2.2.2.2.1 (by decide),
   (c9_setters sampleNaming _).2.2.2.2.2.2.2.1 (by decide),
   (c9_setters sampleNaming _).2.2.2.2.2.2.2.2.1 (by decide),
   (c9_setters sampleNaming _).2.2.2.2.2.2.2.2.2 (by decide)⟩

theorem getLastD_mem_of_ne_nil {α : Type} (l : List α) (d : α) (h : l ≠ []) :
    l.getLastD d ∈ l := by
  induction l generalizing d with
  | nil => exact absurd rfl h
  | cons a t ih =>
    rw [List.getLastD_cons]
    cases t with
    | nil => simp
    | cons b t2 => exact List.mem_cons_of_mem a (ih a (by simp))

/-- C10: `removeNamespaceFrom` is idempotent, returns any string without the
namespace separator ':' unchanged, and its result never contains ':'. -/
theorem c10_removeNamespace (s : Str) :
    removeNamespaceFrom (removeNamespaceFrom s) = removeNamespaceFrom s ∧
    (':' ∉ s → removeNamespaceFrom s = s) ∧
    ':' ∉ removeNamespaceFrom s := by
  have key : ∀ t : Str, ':' ∉ t → removeNamespaceFrom t = t := by
    intro t ht
    simp [removeNamespaceFrom, ht]
  have hno : ':' ∉ removeNamespaceFrom s := by
    by_cases h1 : ':' ∈ s ∧ '|' ∈ s
    · rw [removeNamespaceFrom, if_pos h1]
      refine not_mem_joinSep (by decide) ?_
      intro t' ht'
      rcases List.mem_map.mp ht' with ⟨t, ht, rfl⟩
      exact not_mem_of_mem_splitOnChar ':' t _
        (getLastD_mem_of_ne_nil _ _ (splitOnChar_ne_nil ':' t))
    · rw [removeNamespaceFrom, if_neg h1]
      by_cases h2 : ':' ∈ s
      · rw [if_pos h2]
        exact not_mem_of_mem_splitOnChar ':' s _
          (getLastD_mem_of_ne_nil _ _ (splitOnChar_ne_nil ':' s))
      · rw [if_neg h2]
        exact h2
  exact ⟨key _ hno, key s, hno⟩

/-- C10 witness: the theorem applied at the concrete strings `ns:jnt`
(for idempotence and colon-freeness) and `jnt` (for the no-colon identity,
discharging its hypothesis). -/
theorem c10_removeNamespace_witness :
    removeNamespaceFrom (removeNamespaceFrom (("ns:jnt").toList))
        = removeNamespaceFrom (("ns:jnt").toList) ∧
    removeNamespaceFrom (("jnt").toList) = ("jnt").toList ∧
    ':' ∉ removeNamespaceFrom (("ns:jnt").toList) :=
  ⟨(c10_removeNamespace (("ns:jnt").toList)).1,
   (c10_removeNamespace (("jnt").toList)).2.1 (by decide),
   (c10_removeNamespace (("ns:jnt").toList)).2.2⟩

theorem fileGet_fileSet_self (files : List (String × String)) (k v : String) :
    fileGet (fileSet files k v) k = some v := by
  simp [fileSet, fileGet]

theorem fileGet_fileSet_ne (files : List (String × String)) (k v q : String)
    (h : q ≠ k) : fileGet (fileSet files k v) q = fileGet files q := by
  have hb : (k == q) = false := beq_eq_false_iff_ne.mpr (fun e => h e.symm)
  simp only [fileSet, fileGet, List.find?_cons, hb]
  induction files with
  | nil => rfl
  | cons p t ih =>
    by_cases hp : p.1 = k
    · have hpq : (p.1 == q) = false := by
        rw [hp]
        exact hb
      simp only [List.filter_cons, hp, beq_self_eq_true, Bool.not_true,
        Bool.false_eq_true, if_false, List.find?_cons, hb, cond_false]
      exact ih
    · have hpk : (p.1 == k) = false := beq_eq_false_iff_ne.mpr hp
      simp only [List.filter_cons, hpk, Bool.not_false, if_true, List.find?_cons]
      cases hq : p.1 == q with
      | true => rfl
      | false => exact ih

/-- C8 as stated is universally quantified over filepaths, and fails for a
bare filename: with non-empty data and `file.json` as the path,
`os.path.dirname` gives the empty string, `os.path.isdir('')` is false, and
`os.makedirs('')` raises `FileNotFoundError`, so nothing is written. -/
theorem c8_save_cex :
    save [(("k"), ("v"))] ("file.json") ⟨[], []⟩
      = .error (.fileNotFoundError ("")) := by
  rfl

/-- C8 (amended): saving falsy data returns with the filesystem untouched;
saving non-empty data to a path that has a non-empty directory component
creates the missing parent directories and writes exactly the JSON dump of
the data (sorted keys, 4-space indent) to the file, leaving every other
file unchanged. -/
theorem c8_save (fp : String) (fs : FS) :
    (∀ data : List (String × String), data.isEmpty → save data fp fs = .ok fs) ∧
    (∀ data : List (String × String), ¬ data.isEmpty = true → dirname fp ≠ "" →
      ∃ fs1 : FS,
        save data fp fs = .ok fs1 ∧
        fileGet fs1.files fp = some (dump data) ∧
        (∀ p, p ≠ fp → fileGet fs1.files p = fileGet fs.files p) ∧
        (∀ x ∈ fs.dirs, x ∈ fs1.dirs) ∧
        dirname fp ∈ fs1.dirs) := by
  constructor
  · intro data h
    simp [save, h]
  · intro data hne hdir
    by_cases hin : dirname fp ∈ fs.dirs
    · refine ⟨{ fs with files := fileSet fs.files fp (dump data) }, ?_, ?_, ?_, ?_, ?_⟩
      · simp [save, hne, hin]
      · exact fileGet_fileSet_self fs.files fp (dump data)
      · intro p hp
        exact fileGet_fileSet_ne fs.files fp (dump data) p hp
      · intro x hx
        exact hx
      · exact hin
    · have hmk : makedirs fs (dirname fp) = .ok { fs with
          dirs := fs.dirs ++ (ancestorChain ((dirname fp).length + 1) (dirname fp)).filter
            (fun p => decide (p ∉ fs.dirs)) } := by
        simp [makedirs, hdir]
      refine ⟨⟨fs.dirs ++ (ancestorChain ((dirname fp).length + 1) (dirname fp)).filter
          (fun p => decide (p ∉ fs.dirs)),
          fileSet fs.files fp (dump data)⟩, ?_, ?_, ?_, ?_, ?_⟩
      · simp only [save, hne, if_false, hin, hmk]
        rfl
      · exact fileGet_fileSet_self _ fp (dump data)
      · intro p hp
        exact fileGet_fileSet_ne _ fp (dump data) p hp
      · intro x hx
        exact List.mem_append_left _ hx
      · refine List.mem_append_right _ ?_
        rw [List.mem_filter]
        refine ⟨?_, by simpa using hin⟩
        have : ∃ m, (dirname fp).length + 1 = m + 1 := ⟨(dirname fp).length, rfl⟩
        rcases this with ⟨m, hm⟩
        rw [hm]
        simp [ancestorChain, hdir]

/-- C8 witness: the amended theorem applied at the path `data/weights.json`
on the empty filesystem, with both the falsy branch (empty dict) and the
non-empty branch (a one-entry dict) discharged concretely. -/
theorem c8_save_witness :
    save [] ("data/weights.json") ⟨[], []⟩ = .ok ⟨[], []⟩ ∧
    (∃ fs1 : FS,
        save [(("a"), ("b"))] ("data/weights.json") ⟨[], []⟩ = .ok fs1 ∧
        fileGet fs1.files ("data/weights.json")
          = some (dump [(("a"), ("b"))]) ∧
        (∀ p, p ≠ ("data/weights.json") →
          fileGet fs1.files p = fileGet (FS.mk [] []).files p) ∧
        (∀ x ∈ (FS.mk [] []).dirs, x ∈ fs1.dirs) ∧
        dirname ("data/weights.json") ∈ fs1.dirs) :=
  ⟨(c8_save ("data/weights.json") ⟨[], []⟩).1 [] (by decide),
   (c8_save ("data/weights.json") ⟨[], []⟩).2 [(("a"), ("b"))]
     (by decide) (by decide)⟩

/-! ## Claim C5 — constructor guards -/
/-- C5: constructing a `SkinCluster` raises immediately when the given mesh
does not exist, when no shape is attached to it, or when no skinCluster is
attached to its shape; constructing a `MayaBaseNode` for a missing name
raises immediately.  Each failure returns before any scene state is
produced. -/
theorem c5_constructor_guards (sc : Scene) (m : Str) :
    (objExists sc m = false →
      skinClusterInit sc (some m)
        = .error (.runtimeError ("doesn't seem to exist."))) ∧
    (objExists sc m = true → getShape sc m false = none →
      skinClusterInit sc (some m)
        = .error (.runtimeError ("Could not find a shape attached."))) ∧
    (∀ shp, objExists sc m = true → getShape sc m false = some shp →
      getSkin sc shp = none →
      skinClusterInit sc (some m) = .error (.valueError ("No skin attached."))) ∧
    (objExists sc m = false →
      mayaBaseNodeInit sc m = .error (.assertionError ("doesn't exist"))) := by
  refine ⟨?_, ?_, ?_, ?_⟩
  · intro h
    simp [skinClusterInit, h]
  · intro h1 h2
    simp [skinClusterInit, h1, h2]
  · intro shp h1 h2 h3
    simp [skinClusterInit, h1, h2, h3]
  · intro h
    simp [mayaBaseNodeInit, h]

/-- C5 witness: the four guards fired on concrete scenes. -/
theorem c5_constructor_guards_witness :
    skinClusterInit emptyScene (some (("pCube1").toList))
        = .error (.runtimeError ("doesn't seem to exist.")) ∧
    skinClusterInit bareScene (some (("pCube1").toList))
        = .error (.runtimeError ("Could not find a shape attached.")) ∧
    skinClusterInit unskinnedScene (some (("pCube1").toList))
        = .error (.valueError ("No skin attached.")) ∧
    mayaBaseNodeInit emptyScene (("missing").toList)
        = .error (.assertionError ("doesn't exist")) :=
  ⟨(c5_constructor_guards emptyScene (("pCube1").toList)).1 (by decide),
   (c5_constructor_guards bareScene (("pCube1").toList)).2.1 (by decide) (by decide),
   (c5_constructor_guards unskinnedScene (("pCube1").toList)).2.2.1
     (("pCubeShape1").toList) (by decide) (by decide) (by decide),
   (c5_constructor_guards emptyScene (("missing").toList)).2.2.2 (by decide)⟩

/-! ## Claim C7 — missing control-shape definitions -/
/-- C7 as stated is false at the shape name `Circle`: it differs from the
string 'circle', the empty library contains no definition for it, and yet
`set_shape` succeeds, because the source lowercases the name before the
circle check and never consults the library on that branch. -/
theorem c7_missing_shape_cex :
    ("Circle").toList ≠ ("circle").toList ∧
    pdictFind ([] : List (Str × CtrlDef)) (("Circle").toList) = none ∧
    (set_shape [] bareScene (("pCube1").toList) (("Circle").toList) true).isOk
      = true := by
  decide

/-- C7 (amended): for every shape name whose lowercased form is not
'circle', `set_shape` raises `KeyError` — before touching the scene — when
the control-shape library contains no definition for that name. -/
theorem c7_missing_shape (lib : List (Str × CtrlDef)) (sc : Scene)
    (ctl name : Str) (rep : Bool)
    (h1 : toLowerStr name ≠ ("circle").toList)
    (h2 : pdictFind lib name = none) :
    set_shape lib sc ctl name rep = .error .keyError := by
  unfold set_shape
  rw [if_neg h1, h2]

/-- C7 witness: the amended theorem fired at the shape name `star` on the
empty library. -/
theorem c7_missing_shape_witness :
    set_shape [] bareScene (("pCube1").toList) (("star").toList) true
      = .error .keyError :=
  c7_missing_shape [] bareScene (("pCube1").toList) (("star").toList) true
    (by decide) (by decide)

/-! ## Claim C4 — exception propagation -/

/-- C4 as stated is false: on `c4scene` the per-node deletion of `badNode`
raises `RuntimeError` inside `delete_unknown_nodes`, yet the call returns
normally, records the node as `unable`, and goes on to delete `okNode` —
a host exception caught in order to continue. -/
theorem c4_propagation_cex :
    delete_unknown_nodes c4scene
      = .ok (⟨[⟨("badNode").toList, ("unknown").toList, [], false, true⟩],
              [], [], [], []⟩,
             [("okNode").toList], [("badNode").toList]) := by
  rfl

/-- C4 (amended): failures are host exceptions propagated to the caller and
no operation retries, except that `delete_unknown_nodes` catches per-node
`RuntimeError`/`ValueError` and continues, and the `parent` setters catch
`RuntimeError`, log a warning, and continue: both always return normally. -/
theorem c4_catch_and_continue (sc : Scene) (node par : Str) :
    (delete_unknown_nodes sc).isOk = true ∧
    (parent_setter sc node par).isOk = true := by
  constructor
  · have key : ∀ (l : List SceneNode) (acc : Scene × List Str × List Str),
        (l.foldlM deleteStep acc).isOk = true := by
      intro l
      induction l with
      | nil => intro acc; rfl
      | cons n t ih =>
        intro acc
        rw [List.foldlM_cons]
        by_cases h : n.deleteFails
        · simp only [deleteStep, tryDelete, h, if_true]
          exact ih _
        · simp only [deleteStep, tryDelete, h, if_false]
          exact ih _
    exact key _ _
  · cases h : (objExists sc par && !(node == par)) <;>
      simp only [parent_setter, tryParent, h, Bool.false_eq_true, if_false, if_true] <;>
      rfl

/-! ## Claim C3 — the vertex-count guard -/
/-- C3: both import paths raise `RuntimeError` as soon as the imported
file's blendWeights length differs from the target's vertex count, before
any skinCluster is created and before `setData` writes any skin weights,
blend weights or attributes (the embedded functions return the error with
no successor scene). -/
theorem c3_vertex_count_guard (sc : Scene) (m : Str) (fileData : DataDict)
    (mapping : List (Str × Str)) (bw : List Int) (n : Nat)
    (hbw : pdictFind fileData ("blendWeights") = some (.arr bw))
    (hn : polyEvaluate sc m = some n)
    (hne : bw.length ≠ n) :
    createAndImport sc (some m) fileData mapping
      = .error (.runtimeError ("Imported vtx count did not match.")) ∧
    (∀ st st1 : SkinClusterState, getData sc st = .ok st1 →
      polyEvaluate sc st1.meshShape = some n →
      importWeights sc st fileData mapping
        = .error (.runtimeError ("Imported vtx count did not match."))) := by
  constructor
  · simp [createAndImport, importedVtxCount, hbw, hn, Ne.symm hne]
  · intro st st1 hgd hms
    simp [importWeights, hgd, importedVtxCount, hbw, hms, Ne.symm hne]

/-- C3 witness: both guards fired on the concrete scene, whose mesh has one
vertex while the file carries two blend weights. -/
theorem c3_vertex_count_guard_witness :
    createAndImport c3scene (some (("pCube1").toList)) c3file []
      = .error (.runtimeError ("Imported vtx count did not match.")) ∧
    importWeights c3scene c3st c3file []
      = .error (.runtimeError ("Imported vtx count did not match.")) :=
  ⟨(c3_vertex_count_guard c3scene (("pCube1").toList) c3file [] [0, 0] 1
      (by decide) (by decide) (by decide)).1,
   (c3_vertex_count_guard c3scene (("pCube1").toList) c3file [] [0, 0] 1
      (by decide) (by decide) (by decide)).2 c3st c3st1 (by decide) (by decide)⟩

/-! ## Claim C6 — the exported weights-file format -/
theorem any_beq_iff_mem_keys {κ ν : Type} [BEq κ] [LawfulBEq κ]
    (d : List (κ × ν)) (k : κ) :
    (d.any (fun p => p.1 == k)) = true ↔ k ∈ d.map Prod.fst := by
  simp only [List.any_eq_true, beq_iff_eq, List.mem_map]

theorem pdictFind_pdictSet_self {κ ν : Type} [BEq κ] [LawfulBEq κ]
    (d : List (κ × ν)) (k : κ) (v : ν) :
    pdictFind (pdictSet d k v) k = some v := by
  induction d with
  | nil => simp [pdictSet, pdictFind]
  | cons p t ih =>
    by_cases hp : p.1 = k
    · have hany : ((p :: t).any (fun q => q.1 == k)) = true := by
        simp [hp]
      rw [pdictSet, if_pos hany]
      simp [pdictFind, hp]
    · have hpb : (p.1 == k) = false := beq_eq_false_iff_ne.mpr hp
      by_cases ht : t.any (fun q => q.1 == k)
      · have hany : ((p :: t).any (fun q => q.1 == k)) = true := by
          simp [ht]
        rw [pdictSet, if_pos hany]
        have ih' := ih
        rw [pdictSet, if_pos ht] at ih'
        simpa [pdictFind, hpb] using ih'
      · have hany : ((p :: t).any (fun q => q.1 == k)) = false := by
          simp [hpb, ht]
        rw [pdictSet, if_neg (by simp [hany])]
        have ih' := ih
        rw [pdictSet, if_neg (by simp [ht])] at ih'
        simpa [pdictFind, hpb] using ih'

theorem pdictFind_pdictSet_ne {κ ν : Type} [BEq κ] [LawfulBEq κ]
    (d : List (κ × ν)) (k : κ) (v : ν) (q : κ) (h : q ≠ k) :
    pdictFind (pdictSet d k v) q = pdictFind d q := by
  have hkq : (k == q) = false := beq_eq_false_iff_ne.mpr (fun e => h e.symm)
  have key1 : ∀ t : List (κ × ν),
      pdictFind (t.map (fun p => if p.1 == k then (k, v) else p)) q
        = pdictFind t q := by
    intro t
    induction t with
    | nil => rfl
    | cons p t ih =>
      by_cases hp : p.1 = k
      · simp only [List.map_cons, pdictFind, List.find?_cons, hp, beq_self_eq_true,
          if_true, hkq, cond_false]
        exact ih
      · have hpb : (p.1 == k) = false := beq_eq_false_iff_ne.mpr hp
        simp only [List.map_cons, pdictFind, List.find?_cons, hpb,
          Bool.false_eq_true, if_false]
        cases hpq : p.1 == q with
        | true => rfl
        | false =>
          simp only [cond_false]
          exact ih
  have key2 : ∀ t : List (κ × ν), pdictFind (t ++ [(k, v)]) q = pdictFind t q := by
    intro t
    induction t with
    | nil => simp [pdictFind, hkq]
    | cons p t ih =>
      cases hpq : p.1 == q with
      | true => simp [pdictFind, hpq]
      | false =>
        simp only [pdictFind, List.cons_append, List.find?_cons, hpq, cond_false]
          at ih ⊢
        exact ih
  by_cases hany : d.any (fun p => p.1 == k)
  · rw [pdictSet, if_pos hany]
    exact key1 d
  · rw [pdictSet, if_neg (by simp [hany])]
    exact key2 d

theorem keys_pdictSet {κ ν : Type} [BEq κ] [LawfulBEq κ]
    (d : List (κ × ν)) (k : κ) (v : ν) :
    (pdictSet d k v).map Prod.fst =
      if k ∈ d.map Prod.fst then d.map Prod.fst else d.map Prod.fst ++ [k] := by
  by_cases h : k ∈ d.map Prod.fst
  · rw [pdictSet, if_pos ((any_beq_iff_mem_keys d k).mpr h), if_pos h, List.map_map]
    refine List.map_congr_left ?_
    intro p hp
    by_cases hpk : p.1 = k
    · simp [Function.comp, hpk]
    · simp [Function.comp, beq_eq_false_iff_ne.mpr hpk]
  · rw [pdictSet,
      if_neg (fun c => h ((any_beq_iff_mem_keys d k).mp c)), if_neg h,
      List.map_append]
    rfl

theorem mem_keys_pdictSet {κ ν : Type} [BEq κ] [LawfulBEq κ]
    (d : List (κ × ν)) (k : κ) (v : ν) (q : κ) :
    q ∈ (pdictSet d k v).map Prod.fst ↔ q ∈ d.map Prod.fst ∨ q = k := by
  rw [keys_pdictSet]
  by_cases h : k ∈ d.map Prod.fst
  · rw [if_pos h]
    constructor
    · intro hq
      exact Or.inl hq
    · rintro (hq | rfl)
      · exact hq
      · exact h
  · rw [if_neg h]
    simp [List.mem_append]

theorem mem_keys_range_fold {ν : Type} (f : Nat → Str) (g : Nat → ν) (k : Str) :
    ∀ (n : Nat) (w0 : List (Str × ν)),
      k ∈ ((List.range n).foldl (fun w i => pdictSet w (f i) (g i)) w0).map Prod.fst
        ↔ k ∈ w0.map Prod.fst ∨ ∃ i, i < n ∧ k = f i := by
  intro n
  induction n with
  | zero =>
    intro w0
    rw [List.range_zero, List.foldl_nil]
    constructor
    · exact Or.inl
    · rintro (h | ⟨i, hi, h2⟩)
      · exact h
      · exact absurd hi (Nat.not_lt_zero i)
  | succ n ih =>
    intro w0
    rw [List.range_succ, List.foldl_append, List.foldl_cons, List.foldl_nil,
      mem_keys_pdictSet, ih w0]
    constructor
    · rintro ((h | ⟨i, hi, rfl⟩) | rfl)
      · exact Or.inl h
      · exact Or.inr ⟨i, Nat.lt_succ_of_lt hi, rfl⟩
      · exact Or.inr ⟨n, Nat.lt_succ_self n, rfl⟩
    · rintro (h | ⟨i, hi, rfl⟩)
      · exact Or.inl (Or.inl h)
      · rcases Nat.lt_succ_iff_lt_or_eq.mp hi with h2 | rfl
        · exact Or.inl (Or.inr ⟨i, h2, rfl⟩)
        · exact Or.inr rfl

theorem exists_getD_iff_mem_map {α β : Type} (l : List α) (dflt : α) (f : α → β)
    (k : β) :
    (∃ i, i < l.length ∧ k = f (l.getD i dflt)) ↔ k ∈ l.map f := by
  constructor
  · rintro ⟨i, hi, rfl⟩
    rw [List.getD_eq_getElem l dflt hi]
    exact List.mem_map_of_mem f (List.getElem_mem hi)
  · intro hm
    rcases List.mem_map.mp hm with ⟨a, ha, rfl⟩
    rcases List.mem_iff_getElem.mp ha with ⟨i, hi, he⟩
    exact ⟨i, hi, by rw [List.getD_eq_getElem l dflt hi, he]⟩

theorem mem_keys_influenceFold (sk : SkinNode) (w0 : WDict) (k : Str) :
    k ∈ (influenceFold sk w0).map Prod.fst ↔
      k ∈ w0.map Prod.fst ∨ k ∈ sk.influences.map removeNamespaceFrom := by
  simp only [influenceFold]
  rw [mem_keys_range_fold
    (fun idx => removeNamespaceFrom (sk.influences.getD idx []))
    (fun idx => (List.range (sk.flatWeights.length / sk.influences.length)).map
      (fun jj => sk.flatWeights.getD (jj * sk.influences.length + idx) 0))
    k sk.influences.length w0]
  rw [exists_getD_iff_mem_map sk.influences [] removeNamespaceFrom k]

theorem getData_shape (sc : Scene) (st st1 : SkinClusterState)
    (hgd : getData sc st = .ok st1) :
    ∃ sk w0,
      findSkin sc st.skinCluster = some sk ∧
      pdictFind st.data ("weights") = some (.weights w0) ∧
      st1 = { st with data := getDataDict st.skinCluster sk st.data w0 } := by
  unfold getData at hgd
  split at hgd
  · exact absurd hgd (by simp)
  · rename_i sk hsk
    split at hgd
    · rename_i w0 hw
      refine ⟨sk, w0, hsk, hw, ?_⟩
      exact (Except.ok.inj hgd).symm
    · exact absurd hgd (by simp)

theorem keys_getDataDict (skn : Str) (sk : SkinNode) (d : DataDict) (w0 : WDict)
    (hk : d.map Prod.fst = [("weights"), ("blendWeights"), ("name")] ∨
      d.map Prod.fst = [("weights"), ("blendWeights"), ("name"),
        ("skinningMethod"), ("normalizeWeights")]) :
    (getDataDict skn sk d w0).map Prod.fst
      = [("weights"), ("blendWeights"), ("name"),
         ("skinningMethod"), ("normalizeWeights")] := by
  unfold getDataDict
  rcases hk with hk | hk <;>
  · rw [keys_pdictSet, keys_pdictSet, keys_pdictSet, keys_pdictSet, keys_pdictSet, hk]
    decide

theorem find_getDataDict (skn : Str) (sk : SkinNode) (d : DataDict) (w0 : WDict) :
    pdictFind (getDataDict skn sk d w0) ("weights")
        = some (.weights (influenceFold sk w0)) ∧
    pdictFind (getDataDict skn sk d w0) ("blendWeights")
        = some (.arr sk.blendWeights) ∧
    pdictFind (getDataDict skn sk d w0) ("skinningMethod")
        = some (.int sk.skinningMethod) ∧
    pdictFind (getDataDict skn sk d w0) ("normalizeWeights")
        = some (.int sk.normalizeWeights) ∧
    pdictFind (getDataDict skn sk d w0) ("name") = some (.str skn) := by
  unfold getDataDict
  refine ⟨?_, ?_, ?_, ?_, ?_⟩
  · rw [pdictFind_pdictSet_ne _ _ _ _ (by decide),
      pdictFind_pdictSet_ne _ _ _ _ (by decide),
      pdictFind_pdictSet_ne _ _ _ _ (by decide),
      pdictFind_pdictSet_ne _ _ _ _ (by decide),
      pdictFind_pdictSet_self]
  · rw [pdictFind_pdictSet_ne _ _ _ _ (by decide),
      pdictFind_pdictSet_ne _ _ _ _ (by decide),
      pdictFind_pdictSet_ne _ _ _ _ (by decide),
      pdictFind_pdictSet_self]
  · rw [pdictFind_pdictSet_ne _ _ _ _ (by decide),
      pdictFind_pdictSet_ne _ _ _ _ (by decide),
      pdictFind_pdictSet_self]
  · rw [pdictFind_pdictSet_ne _ _ _ _ (by decide),
      pdictFind_pdictSet_self]
  · rw [pdictFind_pdictSet_self]

theorem init_shape (sc : Scene) (mesh : Option Str) (st : SkinClusterState)
    (hinit : skinClusterInit sc mesh = .ok st) :
    ∃ sk,
      findSkin sc st.skinCluster = some sk ∧
      st.data.map Prod.fst = [("weights"), ("blendWeights"), ("name"),
        ("skinningMethod"), ("normalizeWeights")] ∧
      ∃ w0, pdictFind st.data ("weights") = some (.weights w0) ∧
        (∀ kk ∈ w0.map Prod.fst, kk ∈ sk.influences.map removeNamespaceFrom) := by
  unfold skinClusterInit at hinit
  split at hinit
  · exact absurd hinit (by simp)
  · split at hinit
    · exact absurd hinit (by simp)
    · rename_i shp hshp
      split at hinit
      · exact absurd hinit (by simp)
      · rename_i skn hskn
        rcases getData_shape _ _ _ hinit with ⟨sk, w0, hsk, hw, hst⟩
        have hw0 : w0 = [] := by
          have h0 : pdictFind
              ([(("weights"), DVal.weights []), (("blendWeights"), DVal.arr []),
                (("name"), DVal.str skn)]) ("weights")
              = some (DVal.weights []) := rfl
          have h2 := h0.symm.trans hw
          exact (DVal.weights.inj (Option.some.inj h2)).symm
        subst hw0
        subst hst
        refine ⟨sk, hsk, ?_, influenceFold sk [], ?_, ?_⟩
        · exact keys_getDataDict skn sk
            ([(("weights"), DVal.weights []), (("blendWeights"), DVal.arr []),
              (("name"), DVal.str skn)]) [] (Or.inl rfl)
        · exact (find_getDataDict skn sk
            ([(("weights"), DVal.weights []), (("blendWeights"), DVal.arr []),
              (("name"), DVal.str skn)]) []).1
        · intro kk hkk
          rcases (mem_keys_influenceFold sk [] kk).mp hkk with h | h
          · simp at h
          · exact h

/-- C6: for every skinned mesh (a successfully constructed `SkinCluster`),
`exportWeights` writes to the weights file exactly one serialized dictionary
whose keys are exactly 'weights', 'blendWeights', 'name', 'skinningMethod'
and 'normalizeWeights' — so no version field, checksum or other metadata —
where 'weights' maps exactly the namespace-stripped influence names to
per-vertex arrays, 'blendWeights' is the deformer's blend-weight array, and
'name' is the skinCluster's name. -/
theorem c6_export_format (sc : Scene) (mesh : Option Str) (st : SkinClusterState)
    (path : String) (fs : WFS)
    (hinit : skinClusterInit sc mesh = .ok st)
    (hdir : dirname path ≠ "") :
    ∃ fs1 st1 sk w1,
      exportWeights sc st path fs = .ok (fs1, st1) ∧
      (fs1.files.find? (fun p => p.1 == path)).map Prod.snd = some st1.data ∧
      findSkin sc st.skinCluster = some sk ∧
      st1.data.map Prod.fst = [("weights"), ("blendWeights"), ("name"),
        ("skinningMethod"), ("normalizeWeights")] ∧
      pdictFind st1.data ("weights") = some (.weights w1) ∧
      (∀ kk, kk ∈ w1.map Prod.fst ↔ kk ∈ sk.influences.map removeNamespaceFrom) ∧
      pdictFind st1.data ("blendWeights") = some (.arr sk.blendWeights) ∧
      pdictFind st1.data ("name") = some (.str st.skinCluster) ∧
      pdictFind st1.data ("skinningMethod") = some (.int sk.skinningMethod) ∧
      pdictFind st1.data ("normalizeWeights") = some (.int sk.normalizeWeights) := by
  rcases init_shape sc mesh st hinit with ⟨sk, hsk, hkeys, w0, hw, hw0sub⟩
  have hgd : getData sc st
      = .ok { st with data := getDataDict st.skinCluster sk st.data w0 } := by
    unfold getData
    rw [hsk, hw]
  have hexp : ∃ fs1, exportWeights sc st path fs
        = .ok (fs1, { st with data := getDataDict st.skinCluster sk st.data w0 }) ∧
      (fs1.files.find? (fun p => p.1 == path)).map Prod.snd
        = some ({ st with data := getDataDict st.skinCluster sk st.data w0 }).data := by
    by_cases hin : dirname path ∈ fs.dirs
    · refine ⟨{ fs with files :=
          (path, ({ st with data := getDataDict st.skinCluster sk st.data w0 }).data)
            :: fs.files.filter (fun p => !(p.1 == path)) }, ?_, ?_⟩
      · simp [exportWeights, hgd, hin]
      · simp
    · refine ⟨{ fs with
          dirs := fs.dirs ++ (ancestorChain ((dirname path).length + 1)
            (dirname path)).filter (fun p => decide (p ∉ fs.dirs))
          files :=
            (path, ({ st with data := getDataDict st.skinCluster sk st.data w0 }).data)
              :: fs.files.filter (fun p => !(p.1 == path)) }, ?_, ?_⟩
      · simp [exportWeights, hgd, hin, hdir]
      · simp
  rcases hexp with ⟨fs1, hok, hfile⟩
  refine ⟨fs1, _, sk, influenceFold sk w0, hok, hfile, hsk, ?_, ?_, ?_, ?_, ?_, ?_, ?_⟩
  · exact keys_getDataDict st.skinCluster sk st.data w0 (Or.inr hkeys)
  · exact (find_getDataDict st.skinCluster sk st.data w0).1
  · intro kk
    constructor
    · intro hkk
      rcases (mem_keys_influenceFold sk w0 kk).mp hkk with h | h
      · exact hw0sub kk h
      · exact h
    · intro hkk
      exact (mem_keys_influenceFold sk w0 kk).mpr (Or.inr hkk)
  · exact (find_getDataDict st.skinCluster sk st.data w0).2.1
  · exact (find_getDataDict st.skinCluster sk st.data w0).2.2.2.2
  · exact (find_getDataDict st.skinCluster sk st.data w0).2.2.1
  · exact (find_getDataDict st.skinCluster sk st.data w0).2.2.2.1

/-- C6 witness: the export-format theorem applied to the concrete skinned
scene `c3scene`, exporting to `data/pCube1.weights` on an empty
filesystem. -/
theorem c6_export_format_witness :
    ∃ fs1 st1 sk w1,
      exportWeights c3scene c6st ("data/pCube1.weights") ⟨[], []⟩
          = .ok (fs1, st1) ∧
      (fs1.files.find? (fun p => p.1 == ("data/pCube1.weights"))).map Prod.snd
          = some st1.data ∧
      findSkin c3scene c6st.skinCluster = some sk ∧
      st1.data.map Prod.fst = [("weights"), ("blendWeights"), ("name"),
        ("skinningMethod"), ("normalizeWeights")] ∧
      pdictFind st1.data ("weights") = some (.weights w1) ∧
      (∀ kk, kk ∈ w1.map Prod.fst ↔ kk ∈ sk.influences.map removeNamespaceFrom) ∧
      pdictFind st1.data ("blendWeights") = some (.arr sk.blendWeights) ∧
      pdictFind st1.data ("name") = some (.str c6st.skinCluster) ∧
      pdictFind st1.data ("skinningMethod") = some (.int sk.skinningMethod) ∧
      pdictFind st1.data ("normalizeWeights") = some (.int sk.normalizeWeights) :=
  c6_export_format c3scene (some (("pCube1").toList)) c6st
    ("data/pCube1.weights") ⟨[], []⟩ (by decide) (by decide)

end MT
